import Mathlib

/-!
Shallow embedding of `wpilib/analoggyro.py` (class `AnalogGyro`).

Numeric model: Python floats are idealised as exact rationals (the spec
states its numeric properties "within floating tolerance"); Python `int()`
truncation toward zero is modelled by `pyInt`.  Hardware reads (accumulator
snapshots, average values) are inputs: an `AnalogChannel` record carries the
values the channel would return, and operations that re-read the accumulator
after a wait take the post-wait snapshot as an explicit argument.  The
process-wide global sample rate is passed to `getAngle` as an argument.
-/

namespace AnalogGyroSpec

/-- Python `int()` applied to a rational: truncation toward zero. -/
def pyInt (q : ℚ) : ℤ := if 0 ≤ q then ⌊q⌋ else ⌈q⌉

/-- State of the external `AnalogInput` collaborator, as far as the gyro
driver observes and mutates it: the accumulator output pair, the live
averaged value, the LSB weight, the configured bit depths, the accumulator
center and deadband. -/
structure AnalogChannel where
  accValue : ℤ
  accCount : ℤ
  averageValue : ℤ
  lsbWeight : ℚ
  averageBits : ℕ
  oversampleBits : ℕ
  accumulatorCenter : ℤ
  accumulatorDeadband : ℤ
  deriving Repr, DecidableEq

/-- State of an `AnalogGyro` instance: `analog = none` models the Python
attribute being `None` after `free()` released an allocated channel. -/
structure AnalogGyro where
  analog : Option AnalogChannel
  channelAllocated : Bool
  voltsPerDegreePerSecond : ℚ
  center : ℤ
  offset : ℚ
  deriving Repr, DecidableEq

/-- Python exceptions the embedded code can raise. -/
inductive PyError where
  | zeroDivisionError
  | attributeError
  deriving Repr, DecidableEq

def kOversampleBits : ℕ := 10

def kAverageBits : ℕ := 0

def kSamplesPerSecond : ℚ := 50

def kDefaultVoltsPerDegreePerSecond : ℚ := 7 / 1000

/-- Model of `AnalogInput.resetAccumulator`: zeroes the accumulator pair. -/
def resetAccumulator (ch : AnalogChannel) : AnalogChannel :=
  { ch with accValue := 0, accCount := 0 }

/-- Model of `AnalogGyro.calibrate`.  The accumulator is armed and reset, the code
waits for the calibration window, then reads the snapshot `(value, count)`;
that post-wait snapshot is the `value count` argument here.  Python raises
`AttributeError` when `self.analog` is `None` and `ZeroDivisionError` on
`float(value) / float(count)` with `count = 0`. -/
def calibrate (g : AnalogGyro) (value count : ℤ) : Except PyError AnalogGyro :=
  match g.analog with
  | none => .error .attributeError
  | some ch =>
    if count = 0 then .error .zeroDivisionError
    else
      let mean : ℚ := (value : ℚ) / (count : ℚ)
      let center : ℤ := pyInt (mean + 1 / 2)
      let offset : ℚ := mean - center
      .ok { g with
              center := center
              offset := offset
              analog := some (resetAccumulator { ch with accumulatorCenter := center }) }

/-- Model of `AnalogGyro.reset`. -/
def reset (g : AnalogGyro) : AnalogGyro :=
  match g.analog with
  | none => g
  | some ch => { g with analog := some (resetAccumulator ch) }

/-- Model of `AnalogGyro.free`: the channel is released and the reference cleared
only when it was allocated by the driver itself. -/
def free (g : AnalogGyro) : AnalogGyro :=
  if g.analog.isSome && g.channelAllocated then { g with analog := none } else g

/-- Model of `AnalogGyro.getAngle`.  Here `globalSampleRate` is the process-wide sample
rate read back from `AnalogInput.getGlobalSampleRate()`. -/
def getAngle (globalSampleRate : ℚ) (g : AnalogGyro) : ℚ :=
  match g.analog with
  | none => 0
  | some ch =>
    let value : ℚ := (ch.accValue : ℚ) - (ch.accCount : ℚ) * g.offset
    value * (1 / 10 ^ 9) * ch.lsbWeight * (2 ^ ch.averageBits : ℚ)
      / (globalSampleRate * g.voltsPerDegreePerSecond)

/-- Model of `AnalogGyro.getRate`: uses the channel live `averageValue`, not the
accumulator output. -/
def getRate (g : AnalogGyro) : ℚ :=
  match g.analog with
  | none => 0
  | some ch =>
    ((ch.averageValue : ℚ) - ((g.center : ℚ) + g.offset)) * (1 / 10 ^ 9) * ch.lsbWeight
      / ((2 ^ ch.oversampleBits : ℚ) * g.voltsPerDegreePerSecond)

/-- Model of `AnalogGyro.setSensitivity`: pure setter. -/
def setSensitivity (g : AnalogGyro) (voltsPerDegreePerSecond : ℚ) : AnalogGyro :=
  { g with voltsPerDegreePerSecond := voltsPerDegreePerSecond }

/-- Model of `AnalogGyro.setDeadband`: no-op when released, otherwise converts volts
to raw units and pushes the result to the channel. -/
def setDeadband (g : AnalogGyro) (volts : ℚ) : AnalogGyro :=
  match g.analog with
  | none => g
  | some ch =>
    let deadband : ℤ := pyInt (volts * 10 ^ 9 / ch.lsbWeight * (2 ^ ch.oversampleBits : ℚ))
    { g with analog := some { ch with accumulatorDeadband := deadband } }

/-- The gyro state `AnalogGyro.__init__` has built just before the
preset-versus-calibrate branch: bit depths configured, deadband set to 0. -/
def gyroPreCalib (ch : AnalogChannel) (allocated : Bool) : AnalogGyro :=
  setDeadband
    { analog := some { ch with averageBits := kAverageBits, oversampleBits := kOversampleBits }
      channelAllocated := allocated
      voltsPerDegreePerSecond := kDefaultVoltsPerDegreePerSecond
      center := 0
      offset := 0 }
    0

/-- The global sample rate pushed by `__init__`:
`kSamplesPerSecond * (1 <<< (kAverageBits + kOversampleBits))`. -/
def gyroSampleRate : ℚ := kSamplesPerSecond * 2 ^ (kAverageBits + kOversampleBits)

/-- Model of `AnalogGyro.__init__` after channel resolution.  `ch` is the resolved
channel state, `allocated` whether it was allocated internally; `center` and
`offset` are the optional presets (documented types `int` and `float`);
`value count` is the accumulator snapshot calibration would read.  Returns
the constructed gyro together with the global sample rate pushed. -/
def gyroInit (ch : AnalogChannel) (allocated : Bool) (center : Option ℤ) (offset : Option ℚ)
    (value count : ℤ) : Except PyError (AnalogGyro × ℚ) :=
  let g1 := gyroPreCalib ch allocated
  match center, offset with
  | some c, some o =>
    match g1.analog with
    | none => .error .attributeError
    | some ch2 =>
      .ok ({ g1 with
              center := c
              offset := o
              analog := some (resetAccumulator { ch2 with accumulatorCenter := c }) },
            gyroSampleRate)
  | _, _ => (calibrate g1 value count).map (fun g => (g, gyroSampleRate))

/-- A concrete idle channel used for witnesses and counterexamples. -/
def chA : AnalogChannel :=
  { accValue := 0
    accCount := 0
    averageValue := 0
    lsbWeight := 1
    averageBits := 0
    oversampleBits := 10
    accumulatorCenter := 0
    accumulatorDeadband := 0 }

/-- A concrete gyro owning its channel. -/
def gA : AnalogGyro :=
  { analog := some chA
    channelAllocated := true
    voltsPerDegreePerSecond := kDefaultVoltsPerDegreePerSecond
    center := 0
    offset := 0 }

/-- The result of calibrating `gA` against the snapshot `(501, 2)`:
mean `250.5`, center `251`, offset `-0.5`. -/
def gA2 : AnalogGyro :=
  { analog := some { chA with accumulatorCenter := 251 }
    channelAllocated := true
    voltsPerDegreePerSecond := kDefaultVoltsPerDegreePerSecond
    center := 251
    offset := -(1 / 2) }

/-- A concrete borrowed-channel gyro whose accumulator holds a nonzero
value, chosen so that `getAngle 1` evaluates to `1`. -/
def chB : AnalogChannel :=
  { accValue := 10 ^ 9
    accCount := 0
    averageValue := 0
    lsbWeight := 1
    averageBits := 0
    oversampleBits := 0
    accumulatorCenter := 0
    accumulatorDeadband := 0 }

/-- The gyro borrowing `chB` (caller-supplied channel). -/
def gB : AnalogGyro :=
  { analog := some chB
    channelAllocated := false
    voltsPerDegreePerSecond := 1
    center := 0
    offset := 0 }

/-- The channel of the spec §8 worked example: LSB weight `7.6295e-6`,
average bits 0, snapshot `(505000000, 1010)`. -/
def chC : AnalogChannel :=
  { accValue := 505000000
    accCount := 1010
    averageValue := 0
    lsbWeight := 76295 / 10 ^ 10
    averageBits := 0
    oversampleBits := 10
    accumulatorCenter := 500000
    accumulatorDeadband := 0 }

/-- The gyro of the spec §8 worked example: center `500000`, offset `0`,
sensitivity `0.007`. -/
def gC : AnalogGyro :=
  { analog := some chC
    channelAllocated := true
    voltsPerDegreePerSecond := 7 / 1000
    center := 500000
    offset := 0 }

/-- Helper: on nonnegative input `pyInt` is the floor. -/
theorem pyInt_of_nonneg (q : ℚ) (h : 0 ≤ q) : pyInt q = ⌊q⌋ := if_pos h

/-- Helper: the fractional residual left by the code rounding
`pyInt (x + 1/2)` is always within `(-3/2, 3/2)`, and within `(-1, 1)`
when `x` is nonnegative (in fact within `[-1/2, 1/2)` there). -/
theorem abs_sub_pyInt_half (x : ℚ) :
    |x - pyInt (x + 1 / 2)| < 3 / 2 ∧ (0 ≤ x → |x - pyInt (x + 1 / 2)| < 1) := by
  unfold pyInt
  by_cases h : 0 ≤ x + 1 / 2
  · rw [if_pos h]
    have h1 : ((⌊x + 1 / 2⌋ : ℤ) : ℚ) ≤ x + 1 / 2 := Int.floor_le _
    have h2 : x + 1 / 2 < (⌊x + 1 / 2⌋ : ℤ) + 1 := Int.lt_floor_add_one _
    constructor
    · rw [abs_lt]
      constructor <;> linarith
    · intro h0
      rw [abs_lt]
      constructor <;> linarith
  · rw [if_neg h]
    push_neg at h
    have h1 : x + 1 / 2 ≤ ((⌈x + 1 / 2⌉ : ℤ) : ℚ) := Int.le_ceil _
    have h2 : ((⌈x + 1 / 2⌉ : ℤ) : ℚ) < x + 1 / 2 + 1 := Int.ceil_lt_add_one _
    constructor
    · rw [abs_lt]
      constructor <;> linarith
    · intro h0
      exact absurd h0 (not_le.mpr (by linarith))

/-- Helper: a successful `calibrate` forces `analog = some` and `count ≠ 0`,
and the result fields are the rounded mean decomposition. -/
theorem calibrate_ok_fields (g g2 : AnalogGyro) (value count : ℤ)
    (h : calibrate g value count = .ok g2) :
    g2.center = pyInt ((value : ℚ) / (count : ℚ) + 1 / 2) ∧
    g2.offset = (value : ℚ) / (count : ℚ) - pyInt ((value : ℚ) / (count : ℚ) + 1 / 2) := by
  cases hA : g.analog with
  | none =>
    rw [calibrate, hA] at h
    exact absurd h (by simp)
  | some ch =>
    simp only [calibrate, hA] at h
    by_cases hc : count = 0
    · simp only [if_pos hc] at h
      exact absurd h (by simp)
    · simp only [if_neg hc] at h
      have h2 : _ = g2 := (Except.ok.inj h)
      rw [← h2]
      exact ⟨rfl, rfl⟩

/-- Helper: calibrating `gA` against snapshot `(501, 2)` yields `gA2`. -/
theorem calibrate_gA_snapshot : calibrate gA 501 2 = .ok gA2 := by
  have hfloor : (⌊(251 : ℚ)⌋ : ℤ) = 251 := by
    rw [Int.floor_eq_iff] <;> norm_num
  have harg : ((501 : ℤ) : ℚ) / ((2 : ℤ) : ℚ) + 1 / 2 = (251 : ℚ) := by norm_num
  simp only [calibrate, gA, chA, gA2, pyInt, resetAccumulator, harg]
  norm_num [hfloor, AnalogGyro.mk.injEq, AnalogChannel.mk.injEq]

/-- C1 (amended): for every snapshot with `count > 0`, after `calibrate`
the stored fields satisfy `center + offset = value / count` exactly; the
bound `|offset| < 1` holds whenever `value / count` is nonnegative, but in
general (negative means included) only `|offset| < 3/2` holds. -/
theorem calibrate_center_offset (g g2 : AnalogGyro) (value count : ℤ)
    (hcount : 0 < count) (h : calibrate g value count = .ok g2) :
    (g2.center : ℚ) + g2.offset = (value : ℚ) / (count : ℚ) ∧
    |g2.offset| < 3 / 2 ∧
    (0 ≤ (value : ℚ) / (count : ℚ) → |g2.offset| < 1) := by
  obtain ⟨hc, ho⟩ := calibrate_ok_fields g g2 value count h
  refine ⟨?_, ?_, ?_⟩
  · rw [hc, ho]
    ring
  · rw [ho]
    exact (abs_sub_pyInt_half _).1
  · intro h0
    rw [ho]
    exact (abs_sub_pyInt_half _).2 h0

/-- C1 witness: the amended theorem applied to the concrete calibration of
`gA` against snapshot `(501, 2)`. -/
theorem calibrate_center_offset_witness :
    (gA2.center : ℚ) + gA2.offset = ((501 : ℤ) : ℚ) / ((2 : ℤ) : ℚ) ∧
    |gA2.offset| < 3 / 2 ∧
    (0 ≤ ((501 : ℤ) : ℚ) / ((2 : ℤ) : ℚ) → |gA2.offset| < 1) :=
  calibrate_center_offset gA gA2 501 2 (by norm_num) calibrate_gA_snapshot

/-- C1 counterexample: with snapshot `value = -12`, `count = 5` (a negative
mean), the code stores `center = -1`, `offset = -7/5`; the decomposition
`center + offset = value / count` holds but `|offset| < 1` fails. -/
theorem calibrate_offset_bound_counterexample :
    (calibrate gA (-12) 5).map (fun g => ((g.center : ℚ) + g.offset, g.offset))
      = .ok ((-12 : ℚ) / 5, -(7 / 5)) ∧
    ¬ |(-(7 / 5) : ℚ)| < 1 := by
  constructor
  · have hceil : (⌈(-(19 / 10) : ℚ)⌉ : ℤ) = -1 := by
      rw [Int.ceil_eq_iff]
      norm_num
    have harg : ((-12 : ℤ) : ℚ) / ((5 : ℤ) : ℚ) + 1 / 2 = (-(19 / 10) : ℚ) := by norm_num
    simp only [calibrate, gA, chA, pyInt, resetAccumulator, harg]
    norm_num [hceil, Except.map]
  · rw [not_lt, abs_of_nonpos (by norm_num : (-(7 / 5) : ℚ) ≤ 0)]
    norm_num

/-- C4 (amended): `calibrate` computes `center` by adding `0.5` to
`value / count` and truncating toward zero (Python `int()`); this agrees
with round-half-toward-positive-infinity whenever `value / count` is
nonnegative, but not for negative means. -/
theorem calibrate_center_rounding (g g2 : AnalogGyro) (value count : ℤ)
    (hcount : 0 < count) (h : calibrate g value count = .ok g2) :
    g2.center = pyInt ((value : ℚ) / (count : ℚ) + 1 / 2) ∧
    (0 ≤ (value : ℚ) / (count : ℚ) →
      g2.center = round ((value : ℚ) / (count : ℚ))) := by
  obtain ⟨hc, _⟩ := calibrate_ok_fields g g2 value count h
  refine ⟨hc, fun h0 => ?_⟩
  rw [hc, round_eq, pyInt_of_nonneg _ (by linarith)]

/-- C4 witness: the amended theorem applied to the concrete calibration of
`gA` against snapshot `(501, 2)`. -/
theorem calibrate_center_rounding_witness :
    gA2.center = pyInt (((501 : ℤ) : ℚ) / ((2 : ℤ) : ℚ) + 1 / 2) ∧
    (0 ≤ ((501 : ℤ) : ℚ) / ((2 : ℤ) : ℚ) →
      gA2.center = round (((501 : ℤ) : ℚ) / ((2 : ℤ) : ℚ))) :=
  calibrate_center_rounding gA gA2 501 2 (by norm_num) calibrate_gA_snapshot

/-- C4 counterexample: at snapshot `value = -12`, `count = 5` the code
stores `center = -1`, while rounding `-12/5 = -2.4` with ties toward
positive infinity gives `-2`. -/
theorem calibrate_rounding_counterexample :
    (calibrate gA (-12) 5).map (fun g => g.center) = .ok (-1) ∧
    round ((-12 : ℚ) / 5) = -2 := by
  constructor
  · have hceil : (⌈(-(19 / 10) : ℚ)⌉ : ℤ) = -1 := by
      rw [Int.ceil_eq_iff]
      norm_num
    have harg : ((-12 : ℤ) : ℚ) / ((5 : ℤ) : ℚ) + 1 / 2 = (-(19 / 10) : ℚ) := by norm_num
    simp only [calibrate, gA, chA, pyInt, resetAccumulator, harg]
    norm_num [hceil, Except.map]
  · rw [round_eq]
    have harg : (-12 : ℚ) / 5 + 1 / 2 = -(19 / 10) := by norm_num
    rw [harg, Int.floor_eq_iff] <;> norm_num

/-- Helper: the channel state held by the gyro just before the
preset-versus-calibrate branch of `__init__`. -/
theorem gyroPreCalib_analog (ch : AnalogChannel) (a : Bool) :
    (gyroPreCalib ch a).analog =
      some { ch with
              averageBits := kAverageBits
              oversampleBits := kOversampleBits
              accumulatorDeadband := 0 } := by
  simp [gyroPreCalib, setDeadband, pyInt]

/-- C2 (amended): construction runs `calibrate` exactly when at least one
of the two preset values is absent (the code tests `center is None or
offset is None`); only when both presets are supplied does it skip
calibration, adopt `center`/`offset`, push the center to the channel and
reset the accumulator. -/
theorem gyroInit_calibrates_iff_preset_missing (ch : AnalogChannel) (a : Bool)
    (c : Option ℤ) (o : Option ℚ) (value count : ℤ) :
    (c = none ∨ o = none →
      gyroInit ch a c o value count =
        (calibrate (gyroPreCalib ch a) value count).map (fun g => (g, gyroSampleRate))) ∧
    (∀ cv ov, c = some cv → o = some ov →
      ∃ g2 ch2, gyroInit ch a c o value count = .ok (g2, gyroSampleRate) ∧
        g2.center = cv ∧ g2.offset = ov ∧ g2.analog = some ch2 ∧
        ch2.accumulatorCenter = cv ∧ ch2.accValue = 0 ∧ ch2.accCount = 0) := by
  constructor
  · intro hmiss
    rcases c with _ | cv
    · rfl
    · rcases o with _ | ov
      · rfl
      · rcases hmiss with h | h <;> exact absurd h (by simp)
  · intro cv ov hc ho
    subst hc
    subst ho
    have hres : gyroInit ch a (some cv) (some ov) value count =
        .ok ({ analog := some { ch with
                  averageBits := kAverageBits
                  oversampleBits := kOversampleBits
                  accumulatorDeadband := 0
                  accumulatorCenter := cv
                  accValue := 0
                  accCount := 0 }
               channelAllocated := a
               voltsPerDegreePerSecond := kDefaultVoltsPerDegreePerSecond
               center := cv
               offset := ov }, gyroSampleRate) := by
      simp [gyroInit, gyroPreCalib, setDeadband, pyInt, resetAccumulator]
    exact ⟨_, _, hres, rfl, rfl, rfl, rfl, rfl, rfl⟩

/-- C2 witness: constructing with both presets `center = 1000`,
`offset = 1/4` supplied adopts them without calibrating. -/
theorem gyroInit_calibrates_iff_preset_missing_witness :
    ∃ g2 ch2, gyroInit chA true (some 1000) (some (1 / 4)) 0 0 = .ok (g2, gyroSampleRate) ∧
      g2.center = 1000 ∧ g2.offset = 1 / 4 ∧ g2.analog = some ch2 ∧
      ch2.accumulatorCenter = 1000 ∧ ch2.accValue = 0 ∧ ch2.accCount = 0 :=
  (gyroInit_calibrates_iff_preset_missing chA true (some 1000) (some (1 / 4)) 0 0).2
    1000 (1 / 4) rfl rfl

/-- C2 counterexample: with `presetCenter = 1000` supplied but
`presetOffset` absent, construction calibrates anyway (against the snapshot
`(500, 2)` it stores `center = 250`, not the preset `1000`). -/
theorem gyroInit_preset_counterexample :
    (gyroInit chA true (some 1000) none 500 2).map (fun p => (p.1.center, p.1.offset))
      = .ok (250, (0 : ℚ)) ∧ (250 : ℤ) ≠ 1000 := by
  constructor
  · have hfloor : (⌊(250 + 1 / 2 : ℚ)⌋ : ℤ) = 250 := by
      rw [Int.floor_eq_iff] <;> norm_num
    have harg : ((500 : ℤ) : ℚ) / ((2 : ℤ) : ℚ) + 1 / 2 = (250 + 1 / 2 : ℚ) := by norm_num
    simp only [gyroInit, gyroPreCalib, calibrate, setDeadband, chA, pyInt, resetAccumulator,
      harg]
    norm_num [hfloor, Except.map]
  · norm_num

/-- C3 (amended): after `free`, a driver whose channel was allocated
internally answers `0.0` from both `getAngle` and `getRate`, and a second
`free` is a no-op; for a caller-supplied channel the reference is kept and
readings continue (see the counterexample). -/
theorem free_allocated_zeroes (g : AnalogGyro) (h : g.channelAllocated = true) :
    (∀ rate, getAngle rate (free g) = 0) ∧ getRate (free g) = 0 ∧
    free (free g) = free g := by
  cases hA : g.analog with
  | none =>
    have hf : free g = g := by simp [free, hA]
    rw [hf]
    exact ⟨fun rate => by simp [getAngle, hA], by simp [getRate, hA], hf⟩
  | some ch =>
    have hf : free g = { g with analog := none } := by simp [free, hA, h]
    rw [hf]
    exact ⟨fun rate => rfl, rfl, by simp [free]⟩

/-- C3 witness: the amended theorem applied to the concrete
internally-allocated gyro `gA`. -/
theorem free_allocated_zeroes_witness :
    getAngle 1 (free gA) = 0 ∧ getRate (free gA) = 0 ∧ free (free gA) = free gA :=
  ⟨(free_allocated_zeroes gA rfl).1 1, (free_allocated_zeroes gA rfl).2.1,
    (free_allocated_zeroes gA rfl).2.2⟩

/-- C3 counterexample: `gB` borrows a caller-supplied channel
(`channelAllocated = false`); after `free` its `getAngle` still reads the
channel and returns `1`, not `0.0`. -/
theorem free_borrowed_counterexample :
    gB.channelAllocated = false ∧ getAngle 1 (free gB) = 1 ∧ ((1 : ℚ) = 0 → False) := by
  refine ⟨rfl, ?_, by norm_num⟩
  have hf : free gB = gB := by simp [free, gB]
  rw [hf]
  simp only [getAngle, gB, chB]
  norm_num

/-- C5: for a non-released driver, `getAngle` returns
`(value - count * offset) * 1e-9 * LSBWeight * 2 ^ averageBits /
(globalSampleRate * sensitivity)`. -/
theorem getAngle_formula (rate : ℚ) (g : AnalogGyro) (ch : AnalogChannel)
    (h : g.analog = some ch) :
    getAngle rate g = ((ch.accValue : ℚ) - (ch.accCount : ℚ) * g.offset) * (1 / 10 ^ 9)
      * ch.lsbWeight * (2 ^ ch.averageBits : ℚ)
      / (rate * g.voltsPerDegreePerSecond) := by
  simp only [getAngle, h]

/-- C5 witness: the spec §8 worked example — snapshot `(505000000, 1010)`,
`LSBWeight = 7.6295e-6`, `averageBits = 0`, `globalSampleRate = 51200`,
`sensitivity = 0.007`, `offset = 0`. -/
theorem getAngle_formula_witness :
    getAngle 51200 gC =
      (505000000 - 1010 * 0) * (1 / 10 ^ 9) * (76295 / 10 ^ 10) * 1
        / (51200 * (7 / 1000)) := by
  rw [getAngle_formula 51200 gC chC rfl]
  norm_num [chC, gC]

/-- C6: for a non-released driver, `getRate` returns
`(averageValue - (center + offset)) * 1e-9 * LSBWeight /
(2 ^ oversampleBits * sensitivity)`, and the result depends on the channel
live `averageValue` only — overwriting the accumulator output leaves it
unchanged. -/
theorem getRate_formula (g : AnalogGyro) (ch : AnalogChannel) (h : g.analog = some ch) :
    getRate g = ((ch.averageValue : ℚ) - ((g.center : ℚ) + g.offset)) * (1 / 10 ^ 9)
        * ch.lsbWeight / ((2 ^ ch.oversampleBits : ℚ) * g.voltsPerDegreePerSecond) ∧
    (∀ v c : ℤ,
      getRate { g with analog := some { ch with accValue := v, accCount := c } } = getRate g) := by
  constructor
  · simp only [getRate, h]
  · intro v c
    simp only [getRate, h]

/-- C6 witness: the formula evaluated on the concrete gyro `gC`, including
independence from the accumulator output. -/
theorem getRate_formula_witness :
    getRate gC = ((0 : ℚ) - ((500000 : ℚ) + 0)) * (1 / 10 ^ 9) * (76295 / 10 ^ 10)
        / ((2 ^ 10 : ℚ) * (7 / 1000)) ∧
    getRate { gC with analog := some { chC with accValue := 1, accCount := 1 } } = getRate gC := by
  have h := getRate_formula gC chC rfl
  refine ⟨?_, h.2 1 1⟩
  rw [h.1]
  norm_num [chC, gC]

/-- C7: calibrating against a snapshot with `count = 0` raises the division
fault instead of storing a center/offset. -/
theorem calibrate_zero_count (g : AnalogGyro) (ch : AnalogChannel) (value : ℤ)
    (h : g.analog = some ch) :
    calibrate g value 0 = .error .zeroDivisionError := by
  simp [calibrate, h]

/-- C7 witness: the zero-count fault on the concrete gyro `gA`. -/
theorem calibrate_zero_count_witness :
    calibrate gA 5 0 = .error .zeroDivisionError :=
  calibrate_zero_count gA chA 5 rfl

/-- C8: with any sensitivity `s > 0` and fixed raw channel readings,
setting the sensitivity to `2 * s` instead of `s` halves the magnitude of
every subsequent `getAngle` and `getRate` result. -/
theorem setSensitivity_double_halves (g : AnalogGyro) (s : ℚ) (hs : 0 < s) :
    (∀ rate, |getAngle rate (setSensitivity g (2 * s))|
      = |getAngle rate (setSensitivity g s)| / 2) ∧
    |getRate (setSensitivity g (2 * s))| = |getRate (setSensitivity g s)| / 2 := by
  cases hA : g.analog with
  | none =>
    constructor
    · intro rate
      simp [getAngle, setSensitivity, hA]
    · simp [getRate, setSensitivity, hA]
  | some ch =>
    constructor
    · intro rate
      simp only [getAngle, setSensitivity, hA]
      rw [show rate * (2 * s) = rate * s * 2 by ring, ← div_div, abs_div]
      norm_num
    · simp only [getRate, setSensitivity, hA]
      rw [show (2 ^ ch.oversampleBits : ℚ) * (2 * s) = (2 ^ ch.oversampleBits : ℚ) * s * 2
            by ring,
          ← div_div, abs_div]
      norm_num

/-- C8 witness: the halving relation at the concrete gyro `gB` with
`s = 1`. -/
theorem setSensitivity_double_halves_witness :
    |getAngle 1 (setSensitivity gB (2 * 1))| = |getAngle 1 (setSensitivity gB 1)| / 2 ∧
    |getRate (setSensitivity gB (2 * 1))| = |getRate (setSensitivity gB 1)| / 2 :=
  ⟨(setSensitivity_double_halves gB 1 one_pos).1 1,
    (setSensitivity_double_halves gB 1 one_pos).2⟩

/-- C9: `reset` zeroes the accumulator while leaving `center` and `offset`
unchanged, is a no-op on a released driver, and `getAngle` taken
immediately after it (zero elapsed accumulation) returns `0.0`. -/
theorem reset_preserves_calibration (g : AnalogGyro) :
    (reset g).center = g.center ∧ (reset g).offset = g.offset ∧
    (g.analog = none → reset g = g) ∧
    (∀ ch, g.analog = some ch → (reset g).analog = some (resetAccumulator ch)) ∧
    (∀ rate, getAngle rate (reset g) = 0) := by
  cases hA : g.analog with
  | none =>
    have hr : reset g = g := by simp [reset, hA]
    refine ⟨by rw [hr], by rw [hr], fun _ => hr, ?_, ?_⟩
    · intro ch h
      cases h
    · intro rate
      rw [hr]
      simp [getAngle, hA]
  | some ch =>
    have hr : reset g = { g with analog := some (resetAccumulator ch) } := by
      simp [reset, hA]
    refine ⟨by rw [hr], by rw [hr], ?_, ?_, ?_⟩
    · intro h
      cases h
    · intro ch2 h
      cases h
      rw [hr]
    · intro rate
      rw [hr]
      simp [getAngle, resetAccumulator]

/-- C9 witness: the theorem applied to the concrete gyro `gB`, whose
accumulator held a nonzero value before the reset. -/
theorem reset_preserves_calibration_witness :
    (reset gB).center = gB.center ∧ (reset gB).offset = gB.offset ∧
    (reset gB).analog = some (resetAccumulator chB) ∧ getAngle 1 (reset gB) = 0 :=
  ⟨(reset_preserves_calibration gB).1, (reset_preserves_calibration gB).2.1,
    (reset_preserves_calibration gB).2.2.2.1 chB rfl,
    (reset_preserves_calibration gB).2.2.2.2 1⟩

/-- C10: `getAngle` never divides by the accumulator sample count: for any
snapshot, `count = 0` included, it returns `value - count * offset` scaled
by the fixed conversion factor (it is a total function of the state), and
returns `0.0` when `value = 0` and `count = 0`. -/
theorem getAngle_no_count_division (rate : ℚ) (g : AnalogGyro) (ch : AnalogChannel)
    (h : g.analog = some ch) :
    getAngle rate g = ((ch.accValue : ℚ) - (ch.accCount : ℚ) * g.offset)
      * ((1 / 10 ^ 9) * ch.lsbWeight * (2 ^ ch.averageBits : ℚ)
          / (rate * g.voltsPerDegreePerSecond)) ∧
    (ch.accValue = 0 → ch.accCount = 0 → getAngle rate g = 0) := by
  constructor
  · simp only [getAngle, h]
    ring
  · intro h0 hc
    simp [getAngle, h, h0, hc]

/-- C10 witness: the concrete gyro `gA`, whose snapshot is
`value = 0, count = 0`, yields angle `0` without any fault. -/
theorem getAngle_no_count_division_witness : getAngle 3 gA = 0 :=
  (getAngle_no_count_division 3 gA chA rfl).2 rfl rfl

end AnalogGyroSpec
